import Mathlib

/-!
Shallow embedding of `yml2binddb.py`, a converter from a YAML domain
definition to BIND zone-file text.

The loosely-typed parsed YAML document is modelled by `YVal` / `Kvs`;
`parse_yml` embeds the schema validation of the source (its fatal checks
call `sys.exit(1)`, modelled as `Except.error 1`; an uncaught Python
exception such as a `KeyError` also terminates the process with exit
status 1 and is modelled the same way).  Diagnostics are modelled as
pairs of the stream they are printed to and the exact message text.

Emission (`build_header`, `build_forward_db`, `build_reverse_db`)
operates on a typed document (`ZoneDef`) — the shape guaranteed by the
fatal validation checks — and produces the list of printed lines, each
tagged with the sink it is written to (`Sink.given` for the handler
passed to the builder, `Sink.stdout` for the process standard output).
A crash during emission (the `IndexError` of `nameservers[0]` on an
empty list) is modelled by `Except.error`, carrying the lines printed
before the crash.
-/

set_option autoImplicit false

namespace Yml2BindDb

/-- A parsed YAML value, as the Python `yaml.load` result is used by the
source: strings, integers, booleans, null, sequences and mappings. -/
inductive YVal where
| str (s : String)
| int (n : Int)
| bool (b : Bool)
| null
| list (xs : List YVal)
| dict (kvs : List (String × YVal))

/-- A YAML mapping: association list of key/value pairs (Python `dict`,
keys unique, insertion ordered). -/
abbrev Kvs := List (String × YVal)

/-- Python `d[k]` / `k in d` lookup on a mapping. -/
def lookup : Kvs → String → Option YVal
| [], _ => none
| (k, v) :: rest, key => if k = key then some v else lookup rest key

/-- Python `d[k] = v` for a key already present in the mapping
(the only way the source assigns into a dict). -/
def setKey (kvs : Kvs) (k : String) (v : YVal) : Kvs :=
  kvs.map (fun p => if p.1 = k then (k, v) else p)

/-- The Python classes used in the `isinstance` checks of `parse_yml`. -/
inductive PyTy where
| str
| int
| dict
| list
deriving DecidableEq, Repr

/-- How Python renders a class object inside `str.format`, e.g.
`<class 'str'>`. -/
def PyTy.clsName : PyTy → String
| .str => "<class " ++ "\x27" ++ "str" ++ "\x27" ++ ">"
| .int => "<class " ++ "\x27" ++ "int" ++ "\x27" ++ ">"
| .dict => "<class " ++ "\x27" ++ "dict" ++ "\x27" ++ ">"
| .list => "<class " ++ "\x27" ++ "list" ++ "\x27" ++ ">"

/-- Python rendering of a list of classes, e.g.
the `[<class 'int'>, <class 'str'>]` of the SOA type diagnostics. -/
def tyListName (tys : List PyTy) : String :=
  "[" ++ String.intercalate ", " (tys.map PyTy.clsName) ++ "]"

/-- Python `isinstance(v, t)`.  A Python `bool` is a subclass of `int`,
so it satisfies the `int` check. -/
def isinstance : YVal → PyTy → Bool
| .str _, .str => true
| .int _, .int => true
| .bool _, .int => true
| .dict _, .dict => true
| .list _, .list => true
| _, _ => false

/-- The stream a diagnostic is printed to: `print(...)` with no `file`
argument writes to standard output, `print(..., file=sys.stderr)` to the
error stream. -/
inductive StdStream where
| stdout
| stderr
deriving DecidableEq, Repr

/-- A printed diagnostic: target stream and exact message text. -/
abbrev Diag := StdStream × String

/-- The diagnostic of the `FileNotFoundError` handler of `parse_yml`
(printed with `file=sys.stderr`). -/
def fileNotFoundDiag : Diag :=
  (StdStream.stderr, "[ERROR] File Not Found: Please check file path.")

/-- The first diagnostic of the `yaml.YAMLError` handler of `parse_yml`
(printed with `file=sys.stderr`). -/
def yamlParseErrorDiag : Diag :=
  (StdStream.stderr, "[ERROR] YAML Parse error:")

/-- The `TOP_LEVEL_REQUIRED` schema table of `parse_yml`. -/
def TOP_LEVEL_REQUIRED : List (String × PyTy) :=
  [("ttl", .str), ("domainBase", .str), ("networkBase", .str),
   ("soa", .dict), ("nameservers", .list), ("hosts", .list)]

/-- The `SOA_REQUIRED` schema table of `parse_yml`. -/
def SOA_REQUIRED : List (String × List PyTy) :=
  [("mail", [.str]), ("refresh", [.int, .str]), ("retry", [.int, .str]),
   ("expire", [.int, .str]), ("ttl", [.int, .str])]

/-- Python `s.endswith('.')` for the one-character suffix used by the
source: the last character of `s` is `'.'`. -/
def endsWithDot (s : String) : Bool :=
  match s.data.getLast? with
  | some c => c = '.'
  | none => false

/-- The top-level required-key loop of `parse_yml`: the first missing or
mistyped key yields its diagnostic (and the source exits). -/
def checkTops (d : Kvs) : List (String × PyTy) → Option Diag
| [] => none
| (k, ty) :: rest =>
  match lookup d k with
  | none => some (StdStream.stdout, "[ERROR] Required key \"" ++ k ++ "\" Not Found")
  | some v =>
    if isinstance v ty then checkTops d rest
    else some (StdStream.stdout, "[ERROR] Key \"" ++ k ++ "\" must be " ++ ty.clsName)

/-- The `SOA_REQUIRED` loop of `parse_yml`: first missing or mistyped
`soa` key yields its diagnostic. -/
def checkSoaReq (soa : Kvs) : List (String × List PyTy) → Option Diag
| [] => none
| (k, tys) :: rest =>
  match lookup soa k with
  | none => some (StdStream.stdout, "[ERROR] Required key \"soa." ++ k ++ "\" Not Found")
  | some v =>
    if tys.any (fun t => isinstance v t) then checkSoaReq soa rest
    else some (StdStream.stdout, "[ERROR] Key \"" ++ k ++ "\" must be one of " ++ tyListName tys)

/-- The `SOA_OPTIONAL` loop of `parse_yml`: `soa.serial`, when present,
must be an integer. -/
def checkSerial (soa : Kvs) : Option Diag :=
  match lookup soa "serial" with
  | none => none
  | some v =>
    if isinstance v PyTy.int then none
    else some (StdStream.stdout, "[ERROR] Key \"serial\" must be " ++ PyTy.clsName PyTy.int)

/-- Python string equality test of a YAML value against a string literal
(`==` between a `str` and a value of another type is `False`). -/
def YVal.eqStr : YVal → String → Bool
| .str s, k => s = k
| _, _ => false

/-- Python `needle in hay` on strings: contiguous substring test. -/
def subStr (needle : List Char) : List Char → Bool
| [] => needle.isEmpty
| c :: rest => needle.isPrefixOf (c :: rest) || subStr needle rest

/-- Python `k in v` for a string `k`: key test on a mapping, substring
test on a string, membership on a sequence; any other right operand
raises `TypeError` (modelled as `none`). -/
def memY (k : String) : YVal → Option Bool
| .dict kvs => some (lookup kvs k).isSome
| .str s => some (subStr k.data s.data)
| .list xs => some (xs.any (fun v => v.eqStr k))
| _ => none

/-- The inner key loop of the `nameservers` / `hosts` validation of
`parse_yml`, for one list entry at index `i`: the diagnostics printed,
or `none` when the `key not in entry` test raises `TypeError`. -/
def keyDiags (label : String) (i : Nat) (e : YVal) : List String → Option (List Diag)
| [] => some []
| k :: ks =>
  match memY k e with
  | none => none
  | some true => keyDiags label i e ks
  | some false =>
    (keyDiags label i e ks).map
      (fun gs => (StdStream.stdout,
        "[ERROR] Required key \"" ++ label ++ "[" ++ toString i ++ "]." ++ k
          ++ "\" Not Found") :: gs)

/-- The `enumerate` loop of the list-entry validation of `parse_yml`,
starting at index `n`: accumulated diagnostics, and whether the loop
crashed with `TypeError` (after printing the earlier diagnostics). -/
def entryDiagsAux (label : String) (ks : List String) : Nat → List YVal → List Diag × Bool
| _, [] => ([], false)
| n, e :: rest =>
  match keyDiags label n e ks with
  | none => ([], true)
  | some gs =>
    let r := entryDiagsAux label ks (n + 1) rest
    (gs ++ r.1, r.2)

/-- List-entry validation of `parse_yml` over a whole list (indices from
zero). -/
def entryDiags (label : String) (ks : List String) (entries : List YVal) :
    List Diag × Bool :=
  entryDiagsAux label ks 0 entries

/-- Python `s.replace('@', '.')` (single-character pattern: a per-character
substitution). -/
def mailReplace (s : String) : String :=
  ⟨s.data.map (fun c => if c = '@' then '.' else c)⟩

/-- Lines 141-142 of the source: `mail.replace('@', '.') + '.'`. -/
def normalizeMail (s : String) : String :=
  mailReplace s ++ "."

/-- Lines 146-147 / 150-151 of the source: a hostname containing a `.`
is replaced by `split('.')[0]`, the prefix before the first `.`;
otherwise it is left untouched. -/
def normalizeHostname (s : String) : String :=
  if '.' ∈ s.data then ⟨s.data.takeWhile (fun c => c ≠ '.')⟩ else s

/-- Shape coercions of the dynamic accesses in `normalize`; a value of
the wrong shape raises (`TypeError` / `AttributeError`), modelled as
`none`. -/
def YVal.asStr : YVal → Option String
| .str s => some s
| _ => none

/-- Mapping coercion, see `YVal.asStr`. -/
def YVal.asDict : YVal → Option Kvs
| .dict kvs => some kvs
| _ => none

/-- Sequence coercion, see `YVal.asStr`.  `normalize` is only invoked on
documents whose `nameservers` / `hosts` already passed the `list` type
check, so only the `.list` case is reachable from `parse_yml`. -/
def YVal.asList : YVal → Option (List YVal)
| .list xs => some xs
| _ => none

/-- The body of the two hostname loops of `normalize` for one list
entry: `entry['hostname']` must exist (`KeyError` otherwise) and be a
string (`.find` raises `AttributeError` otherwise); a dotted hostname is
replaced by the label before the first dot. -/
def normEntry (v : YVal) : Option YVal := do
  let kvs ← v.asDict
  let hv ← lookup kvs "hostname"
  let h ← hv.asStr
  pure (YVal.dict
    (if '.' ∈ h.data
     then setKey kvs "hostname" (YVal.str ⟨h.data.takeWhile (fun c => c ≠ '.')⟩)
     else kvs))

/-- The two entry loops of `normalize`, entry by entry; the first
crashing entry aborts the process. -/
def mapNorm : List YVal → Option (List YVal)
| [] => some []
| e :: rest =>
  match normEntry e with
  | none => none
  | some e2 => (mapNorm rest).map (fun l => e2 :: l)

/-- The `normalize` function of the source (lines 140-153): rewrite
`soa.mail`, strip the domain suffix from every nameserver and host
hostname.  `none` models an uncaught exception (missing key or
wrongly-typed field), which terminates the process. -/
def normalize (d : Kvs) : Option Kvs := do
  let soaV ← lookup d "soa"
  let soaKvs ← soaV.asDict
  let mailV ← lookup soaKvs "mail"
  let mail ← mailV.asStr
  let d1 := setKey d "soa" (YVal.dict (setKey soaKvs "mail" (YVal.str (normalizeMail mail))))
  let nssV ← lookup d1 "nameservers"
  let nss ← nssV.asList
  let nss2 ← mapNorm nss
  let d2 := setKey d1 "nameservers" (YVal.list nss2)
  let hsV ← lookup d2 "hosts"
  let hs ← hsV.asList
  let hs2 ← mapNorm hs
  pure (setKey d2 "hosts" (YVal.list hs2))

/-- The `NS_REQUIRED` table of `parse_yml`. -/
def NS_REQUIRED : List String := ["hostname"]

/-- The `HOST_REQUIRED` table of `parse_yml`. -/
def HOST_REQUIRED : List String := ["hostname", "ip"]

/-- The schema-validation part of `parse_yml` (source lines 79-137),
from the parsed document to the printed diagnostics and either the
normalized document (`Except.ok`) or process termination with the given
exit status (`Except.error`; `sys.exit(1)` on a fatal check, and exit
status 1 for an uncaught exception).  The catch-all `_` branches are
unreachable from the source control flow: they correspond to accesses
that the preceding `isinstance` checks already ruled out, where Python
would terminate with an uncaught exception. -/
def parse_yml (d : Kvs) : List Diag × Except Nat Kvs :=
  match checkTops d TOP_LEVEL_REQUIRED with
  | some g => ([g], Except.error 1)
  | none =>
    match lookup d "domainBase" with
    | some (YVal.str dB) =>
      if endsWithDot dB then
        match lookup d "soa" with
        | some (YVal.dict soa) =>
          (match checkSoaReq soa SOA_REQUIRED with
           | some g => ([g], Except.error 1)
           | none =>
             match checkSerial soa with
             | some g => ([g], Except.error 1)
             | none =>
               match lookup d "nameservers", lookup d "hosts" with
               | some (YVal.list nss), some (YVal.list hs) =>
                 if (entryDiags "nameservers" NS_REQUIRED nss).2 then
                   ((entryDiags "nameservers" NS_REQUIRED nss).1, Except.error 1)
                 else if (entryDiags "hosts" HOST_REQUIRED hs).2 then
                   ((entryDiags "nameservers" NS_REQUIRED nss).1
                     ++ (entryDiags "hosts" HOST_REQUIRED hs).1, Except.error 1)
                 else
                   match normalize d with
                   | some d2 =>
                     ((entryDiags "nameservers" NS_REQUIRED nss).1
                       ++ (entryDiags "hosts" HOST_REQUIRED hs).1, Except.ok d2)
                   | none =>
                     ((entryDiags "nameservers" NS_REQUIRED nss).1
                       ++ (entryDiags "hosts" HOST_REQUIRED hs).1, Except.error 1)
               | _, _ => ([], Except.error 1))
        | _ => ([], Except.error 1)
      else
        ([(StdStream.stdout, "[ERROR] domainBase must be FQDN, end with \".\"")],
         Except.error 1)
    | _ => ([], Except.error 1)

/-- Where an emitted line is written: the handler the builder received
(`ohandler`), or the process standard output (`sys.stdout`).  The two
coincide only when no output file was named on the command line. -/
inductive Sink where
| given
| stdout
deriving DecidableEq, Repr

/-- One printed line of zone-file output, tagged with its sink. -/
abbrev OutLine := Sink × String

/-- A nameserver entry as the emitters use it: the (normalized)
`hostname`, and the value of the `master` key when that key is present
(the source tests only presence, never the value). -/
structure Nameserver where
  hostname : String
  master : Option Bool
deriving DecidableEq, Repr

/-- A host entry as the emitters use it: `hostname`, `ip`, and the
optional `description`. -/
structure Host where
  hostname : String
  ip : String
  description : Option String
deriving DecidableEq, Repr

/-- The `soa` mapping as the emitters use it.  `refresh`, `retry`,
`expire` and `ttl` may be integers or strings in the document; both are
interpolated with `{}`, so they are carried here as their rendered
text. -/
structure Soa where
  mail : String
  refresh : String
  retry : String
  expire : String
  ttl : String
deriving DecidableEq, Repr

/-- A validated, normalized document, as consumed by the emitters. -/
structure ZoneDef where
  ttl : String
  domainBase : String
  networkBase : String
  soa : Soa
  nameservers : List Nameserver
  hosts : List Host
deriving DecidableEq, Repr

/-- Python `ip.split('.')[-1]`: the substring after the final `.` (the
whole string when it has no `.`). -/
def lastOctet (s : String) : String :=
  ⟨(s.data.reverse.takeWhile (fun c => c ≠ '.')).reverse⟩

/-- The primary-nameserver selection of `build_header` (lines 165-171):
the first entry whose `master` key is present, else
`nameservers[0]['hostname']`; `none` models the `IndexError` on an
empty list. -/
def pickPrimary : List Nameserver → Option String :=
  fun nss =>
    match nss.find? (fun ns => ns.master.isSome) with
    | some ns => some ns.hostname
    | none =>
      match nss with
      | [] => none
      | ns :: _ => some ns.hostname

/-- The `build_header` function (lines 156-189): the `$TTL` line and a
blank line, then the SOA record.  `Except.error` carries the lines
printed before the `IndexError` of `nameservers[0]` on an empty list. -/
def build_header (d : ZoneDef) (dont_abbrev : Bool) : Except (List OutLine) (List OutLine) :=
  let ttlLines : List OutLine := [(Sink.given, "$TTL " ++ d.ttl), (Sink.given, "")]
  match pickPrimary d.nameservers with
  | none => Except.error ttlLines
  | some pri =>
    let domain_base := if dont_abbrev then d.domainBase else "@"
    Except.ok (ttlLines ++
      [(Sink.given, domain_base ++ " IN SOA " ++ pri ++ "." ++ d.domainBase ++ " "
          ++ d.soa.mail ++ " ("),
       (Sink.given, "    " ++ d.soa.refresh ++ "  ; refresh"),
       (Sink.given, "    " ++ d.soa.retry ++ "  ; retry"),
       (Sink.given, "    " ++ d.soa.expire ++ "  ; expire"),
       (Sink.given, "    " ++ d.soa.ttl ++ "  ; ttl"),
       (Sink.given, ")"), (Sink.given, "")])

/-- The NS-record loop shared by both builders (lines 201-207 and
233-239): one `    IN NS <name>` line per nameserver, in list order. -/
def nsRecords (domainBase : String) (dont_abbrev : Bool) : List Nameserver → List OutLine
| [] => []
| ns :: rest =>
  (Sink.given, "    IN NS "
      ++ (if dont_abbrev then ns.hostname ++ "." ++ domainBase else ns.hostname))
    :: nsRecords domainBase dont_abbrev rest

/-- The A/TXT loop of `build_forward_db` (lines 211-221).  The TXT
`print` of the source passes `file=ohandler` to `str.format` (where it
is silently ignored) instead of to `print`, so the TXT line goes to the
process standard output, not to the handler. -/
def fwdHostRecords (domainBase : String) (dont_abbrev : Bool) : List Host → List OutLine
| [] => []
| h :: rest =>
  let hostname := if dont_abbrev then h.hostname ++ "." ++ domainBase else h.hostname
  (Sink.given, hostname ++ "   IN A   " ++ h.ip)
    :: ((match h.description with
         | some ds => [(Sink.stdout, hostname ++ "   IN TXT \"" ++ ds ++ "\"")]
         | none => [])
        ++ fwdHostRecords domainBase dont_abbrev rest)

/-- The PTR/TXT loop of `build_reverse_db` (lines 243-253). -/
def revHostRecords (domainBase : String) (dont_abbrev : Bool) : List Host → List OutLine
| [] => []
| h :: rest =>
  let ip := if dont_abbrev then h.ip else lastOctet h.ip
  let fqdn := h.hostname ++ "." ++ domainBase
  (Sink.given, ip ++ "    IN PTR " ++ fqdn)
    :: ((match h.description with
         | some ds => [(Sink.given, ip ++ "    IN TXT \"" ++ ds ++ "\"")]
         | none => [])
        ++ revHostRecords domainBase dont_abbrev rest)

/-- The `build_forward_db` function (lines 192-221): header, NS block,
blank line, A/TXT block. -/
def build_forward_db (d : ZoneDef) (dont_abbrev : Bool) :
    Except (List OutLine) (List OutLine) :=
  match build_header d dont_abbrev with
  | Except.error out => Except.error out
  | Except.ok hdr =>
    Except.ok (hdr ++ nsRecords d.domainBase dont_abbrev d.nameservers
      ++ [(Sink.given, "")] ++ fwdHostRecords d.domainBase dont_abbrev d.hosts)

/-- The `build_reverse_db` function (lines 224-253): header, NS block,
blank line, PTR/TXT block. -/
def build_reverse_db (d : ZoneDef) (dont_abbrev : Bool) :
    Except (List OutLine) (List OutLine) :=
  match build_header d dont_abbrev with
  | Except.error out => Except.error out
  | Except.ok hdr =>
    Except.ok (hdr ++ nsRecords d.domainBase dont_abbrev d.nameservers
      ++ [(Sink.given, "")] ++ revHostRecords d.domainBase dont_abbrev d.hosts)

/-! Sample documents used by witnesses and counterexamples. -/

/-- A typed sample document: one nameserver, one host with a
description. -/
def zdoc : ZoneDef :=
  ⟨"1d", "example.com.", "10.0.0", ⟨"admin.example.com.", "1", "2", "3", "4"⟩,
   [⟨"ns1", none⟩], [⟨"www", "10.0.0.5", some "web server"⟩]⟩

/-! Helper lemmas about the emission loops. -/

theorem nsRecords_eq_map (dB : String) (da : Bool) (l : List Nameserver) :
    nsRecords dB da l = l.map (fun ns =>
      ((Sink.given,
        "    IN NS " ++ (if da then ns.hostname ++ "." ++ dB else ns.hostname)) : OutLine)) := by
  induction l with
  | nil => rfl
  | cons ns rest ih => simp [nsRecords, ih]

theorem fwdHostRecords_eq_flatMap (dB : String) (da : Bool) (l : List Host) :
    fwdHostRecords dB da l = l.flatMap (fun h =>
      ((Sink.given,
          (if da then h.hostname ++ "." ++ dB else h.hostname) ++ "   IN A   " ++ h.ip) : OutLine)
        :: (match h.description with
            | some ds => [(Sink.stdout,
                (if da then h.hostname ++ "." ++ dB else h.hostname)
                  ++ "   IN TXT \"" ++ ds ++ "\"")]
            | none => [])) := by
  induction l with
  | nil => rfl
  | cons h rest ih => simp [fwdHostRecords, ih]

theorem revHostRecords_eq_flatMap (dB : String) (da : Bool) (l : List Host) :
    revHostRecords dB da l = l.flatMap (fun h =>
      ((Sink.given,
          (if da then h.ip else lastOctet h.ip) ++ "    IN PTR "
            ++ (h.hostname ++ "." ++ dB)) : OutLine)
        :: (match h.description with
            | some ds => [(Sink.given,
                (if da then h.ip else lastOctet h.ip) ++ "    IN TXT \"" ++ ds ++ "\"")]
            | none => [])) := by
  induction l with
  | nil => rfl
  | cons h rest ih => simp [revHostRecords, ih]

theorem pickPrimary_of_ne_nil (l : List Nameserver) (h : l ≠ []) :
    ∃ p, pickPrimary l = some p := by
  cases l with
  | nil => exact absurd rfl h
  | cons a rest =>
    cases hf : (a :: rest).find? (fun ns => ns.master.isSome) with
    | some ns => exact ⟨ns.hostname, by simp [pickPrimary, hf]⟩
    | none => exact ⟨a.hostname, by simp [pickPrimary, hf]⟩

/-- C1: for every validated, normalized document (with the nonempty
`nameservers` list that the header builder needs, see C10), forward
emission is the header followed by exactly one NS line per nameserver
entry and exactly one A line per host entry, and reverse emission is the
header followed by exactly one NS line per nameserver entry and exactly
one PTR line per host entry, each section in input list order (`map` /
`flatMap` over the input lists: no sorting, no skipping, no
duplication). -/
theorem c1_one_record_per_entry (d : ZoneDef) (da : Bool) (hne : d.nameservers ≠ []) :
    ∃ hdr : List OutLine, build_header d da = Except.ok hdr ∧
      build_forward_db d da = Except.ok (hdr
        ++ d.nameservers.map (fun ns =>
            ((Sink.given,
              "    IN NS " ++ (if da then ns.hostname ++ "." ++ d.domainBase else ns.hostname)) : OutLine))
        ++ [(Sink.given, "")]
        ++ d.hosts.flatMap (fun h =>
            ((Sink.given,
                (if da then h.hostname ++ "." ++ d.domainBase else h.hostname)
                  ++ "   IN A   " ++ h.ip) : OutLine)
              :: (match h.description with
                  | some ds => [(Sink.stdout,
                      (if da then h.hostname ++ "." ++ d.domainBase else h.hostname)
                        ++ "   IN TXT \"" ++ ds ++ "\"")]
                  | none => []))) ∧
      build_reverse_db d da = Except.ok (hdr
        ++ d.nameservers.map (fun ns =>
            ((Sink.given,
              "    IN NS " ++ (if da then ns.hostname ++ "." ++ d.domainBase else ns.hostname)) : OutLine))
        ++ [(Sink.given, "")]
        ++ d.hosts.flatMap (fun h =>
            ((Sink.given,
                (if da then h.ip else lastOctet h.ip) ++ "    IN PTR "
                  ++ (h.hostname ++ "." ++ d.domainBase)) : OutLine)
              :: (match h.description with
                  | some ds => [(Sink.given,
                      (if da then h.ip else lastOctet h.ip) ++ "    IN TXT \"" ++ ds ++ "\"")]
                  | none => []))) ∧
      (nsRecords d.domainBase da d.nameservers).length = d.nameservers.length := by
  obtain ⟨pri, hpri⟩ := pickPrimary_of_ne_nil _ hne
  have hh : ∃ hdr, build_header d da = Except.ok hdr := by
    simp [build_header, hpri]
  obtain ⟨hdr, hh⟩ := hh
  refine ⟨hdr, hh, ?_, ?_, ?_⟩
  · simp [build_forward_db, hh, nsRecords_eq_map, fwdHostRecords_eq_flatMap]
  · simp [build_reverse_db, hh, nsRecords_eq_map, revHostRecords_eq_flatMap]
  · simp [nsRecords_eq_map]

/-- Witness for C1 at the sample document (abbreviated form). -/
theorem c1_one_record_per_entry_witness :
    (zdoc.nameservers ≠ []) ∧
    (∃ hdr : List OutLine, build_header zdoc false = Except.ok hdr ∧
      build_forward_db zdoc false = Except.ok (hdr
        ++ zdoc.nameservers.map (fun ns =>
            ((Sink.given,
              "    IN NS " ++ (if false then ns.hostname ++ "." ++ zdoc.domainBase else ns.hostname)) : OutLine))
        ++ [(Sink.given, "")]
        ++ zdoc.hosts.flatMap (fun h =>
            ((Sink.given,
                (if false then h.hostname ++ "." ++ zdoc.domainBase else h.hostname)
                  ++ "   IN A   " ++ h.ip) : OutLine)
              :: (match h.description with
                  | some ds => [(Sink.stdout,
                      (if false then h.hostname ++ "." ++ zdoc.domainBase else h.hostname)
                        ++ "   IN TXT \"" ++ ds ++ "\"")]
                  | none => []))) ∧
      build_reverse_db zdoc false = Except.ok (hdr
        ++ zdoc.nameservers.map (fun ns =>
            ((Sink.given,
              "    IN NS " ++ (if false then ns.hostname ++ "." ++ zdoc.domainBase else ns.hostname)) : OutLine))
        ++ [(Sink.given, "")]
        ++ zdoc.hosts.flatMap (fun h =>
            ((Sink.given,
                (if false then h.ip else lastOctet h.ip) ++ "    IN PTR "
                  ++ (h.hostname ++ "." ++ zdoc.domainBase)) : OutLine)
              :: (match h.description with
                  | some ds => [(Sink.given,
                      (if false then h.ip else lastOctet h.ip) ++ "    IN TXT \"" ++ ds ++ "\"")]
                  | none => []))) ∧
      (nsRecords zdoc.domainBase false zdoc.nameservers).length = zdoc.nameservers.length) :=
  ⟨by decide, c1_one_record_per_entry zdoc false (by decide)⟩

/-- C2 (code bug): in forward emission a host with a `description` does
produce exactly one TXT line with the A-line hostname immediately after
its A line, and a host without one produces none — but the line is
written to the process standard output, not to the given output sink:
line 220 of the source passes `file=ohandler` to `str.format` (which
ignores unknown keyword arguments) instead of to `print`, contradicting
the docstring "write generated forward DB definition to ohandler" (the
reverse builder passes `file=ohandler` to `print` correctly). -/
theorem c2_forward_txt_written_to_stdout :
    build_forward_db zdoc false = Except.ok
      [(Sink.given, "$TTL 1d"), (Sink.given, ""),
       (Sink.given, "@ IN SOA ns1.example.com. admin.example.com. ("),
       (Sink.given, "    1  ; refresh"), (Sink.given, "    2  ; retry"),
       (Sink.given, "    3  ; expire"), (Sink.given, "    4  ; ttl"),
       (Sink.given, ")"), (Sink.given, ""),
       (Sink.given, "    IN NS ns1"), (Sink.given, ""),
       (Sink.given, "www   IN A   10.0.0.5"),
       (Sink.stdout, "www   IN TXT \"web server\"")]
    ∧ Sink.stdout ≠ Sink.given
    ∧ fwdHostRecords "example.com." false [⟨"api", "10.0.0.6", none⟩]
        = [(Sink.given, "api   IN A   10.0.0.6")] :=
  ⟨by rfl, by decide, by rfl⟩

/-- The reverse abbreviation helper: when the string contains a `.`, it
splits as everything up to the final `.` followed by `lastOctet`, and
`lastOctet` itself contains no `.`. -/
theorem lastOctet_split (s : String) (hdot : '.' ∈ s.data) :
    (∃ pre : List Char, s.data = pre ++ '.' :: (lastOctet s).data)
    ∧ ∀ c ∈ (lastOctet s).data, c ≠ '.' := by
  have hmemr : '.' ∈ s.data.reverse := List.mem_reverse.mpr hdot
  have hsplit :
      s.data.reverse.takeWhile (fun c => c ≠ '.')
        ++ s.data.reverse.dropWhile (fun c => c ≠ '.') = s.data.reverse :=
    List.takeWhile_append_dropWhile _ _
  have hdne : s.data.reverse.dropWhile (fun c => c ≠ '.') ≠ [] := by
    intro h0
    rw [h0, List.append_nil] at hsplit
    have := List.mem_takeWhile_imp (p := fun c => c ≠ '.') (hsplit ▸ hmemr)
    simp at this
  have hhead := List.head_dropWhile_not (fun c => c ≠ '.') s.data.reverse hdne
  have hheadEq : (s.data.reverse.dropWhile (fun c => c ≠ '.')).head hdne = '.' := by
    simpa using hhead
  have hcons :
      s.data.reverse.dropWhile (fun c => c ≠ '.')
        = '.' :: (s.data.reverse.dropWhile (fun c => c ≠ '.')).tail := by
    conv_lhs => rw [← List.head_cons_tail _ hdne]
    rw [hheadEq]
  constructor
  · refine ⟨(s.data.reverse.dropWhile (fun c => c ≠ '.')).tail.reverse, ?_⟩
    have hlo : (lastOctet s).data = (s.data.reverse.takeWhile (fun c => c ≠ '.')).reverse := rfl
    conv_lhs => rw [← List.reverse_reverse s.data, ← hsplit]
    rw [hcons, hlo]
    simp
  · intro c hc
    have hc2 : c ∈ s.data.reverse.takeWhile (fun c => c ≠ '.') := by
      have hlo : (lastOctet s).data = (s.data.reverse.takeWhile (fun c => c ≠ '.')).reverse := rfl
      rw [hlo] at hc
      exact List.mem_reverse.mp hc
    have := List.mem_takeWhile_imp hc2
    simpa using this

/-- C3: the per-host reverse record is exactly one PTR line whose target
is always the fully qualified `<hostname>.<domainBase>` (independent of
the abbreviation flag) and whose left side is the full `ip` when
`dont_abbrev` is set and otherwise `lastOctet ip`; `lastOctet` is the
substring after the final `.` (it contains no `.`, and the input splits
around the final `.` before it); the claim's examples emit
`5    IN PTR www.example.com.` abbreviated and
`10.0.0.5    IN PTR www.example.com.` otherwise. -/
theorem c3_reverse_ptr_shape (dB : String) (da : Bool) (hs : List Host)
    (s : String) (hdot : '.' ∈ s.data) :
    revHostRecords dB da hs = hs.flatMap (fun h =>
      ((Sink.given,
          (if da then h.ip else lastOctet h.ip) ++ "    IN PTR "
            ++ (h.hostname ++ "." ++ dB)) : OutLine)
        :: (match h.description with
            | some ds => [(Sink.given,
                (if da then h.ip else lastOctet h.ip) ++ "    IN TXT \"" ++ ds ++ "\"")]
            | none => []))
    ∧ (∃ pre : List Char, s.data = pre ++ '.' :: (lastOctet s).data)
    ∧ (∀ c ∈ (lastOctet s).data, c ≠ '.')
    ∧ lastOctet "10.0.0.5" = "5"
    ∧ revHostRecords "example.com." false [⟨"www", "10.0.0.5", none⟩]
        = [(Sink.given, "5    IN PTR www.example.com.")]
    ∧ revHostRecords "example.com." true [⟨"www", "10.0.0.5", none⟩]
        = [(Sink.given, "10.0.0.5    IN PTR www.example.com.")] :=
  ⟨revHostRecords_eq_flatMap dB da hs, (lastOctet_split s hdot).1,
   (lastOctet_split s hdot).2, by rfl, by rfl, by rfl⟩

/-- Witness for C3 at `ip = "10.0.0.5"`. -/
theorem c3_reverse_ptr_shape_witness :
    ('.' ∈ "10.0.0.5".data) ∧
    (revHostRecords "example.com." false [⟨"www", "10.0.0.5", some "web server"⟩]
        = ([⟨"www", "10.0.0.5", some "web server"⟩] : List Host).flatMap (fun h =>
      ((Sink.given,
          (if false then h.ip else lastOctet h.ip) ++ "    IN PTR "
            ++ (h.hostname ++ "." ++ "example.com.")) : OutLine)
        :: (match h.description with
            | some ds => [(Sink.given,
                (if false then h.ip else lastOctet h.ip) ++ "    IN TXT \"" ++ ds ++ "\"")]
            | none => []))
    ∧ (∃ pre : List Char, "10.0.0.5".data = pre ++ '.' :: (lastOctet "10.0.0.5").data)
    ∧ (∀ c ∈ (lastOctet "10.0.0.5").data, c ≠ '.')
    ∧ lastOctet "10.0.0.5" = "5"
    ∧ revHostRecords "example.com." false [⟨"www", "10.0.0.5", none⟩]
        = [(Sink.given, "5    IN PTR www.example.com.")]
    ∧ revHostRecords "example.com." true [⟨"www", "10.0.0.5", none⟩]
        = [(Sink.given, "10.0.0.5    IN PTR www.example.com.")]) :=
  ⟨by decide,
   c3_reverse_ptr_shape "example.com." false [⟨"www", "10.0.0.5", some "web server"⟩]
     "10.0.0.5" (by decide)⟩

/-- The `for ns in nameservers / if master in ns / break` loop of
`build_header`: it stops at the first entry whose `master` key is
present (every earlier entry lacks it), whatever the key's value. -/
theorem find?_master_eq_get (nss : List Nameserver) (i : Nat) (hi : i < nss.length)
    (hm : (nss.get ⟨i, hi⟩).master.isSome = true)
    (hbefore : ∀ j (hj : j < i), (nss.get ⟨j, Nat.lt_trans hj hi⟩).master = none) :
    nss.find? (fun ns => ns.master.isSome) = some (nss.get ⟨i, hi⟩) := by
  induction nss generalizing i with
  | nil => simp at hi
  | cons a rest ih =>
    cases i with
    | zero =>
      have ha : a.master.isSome = true := hm
      simp [List.find?_cons, ha]
    | succ i2 =>
      have h0 : a.master = none := hbefore 0 (Nat.succ_pos _)
      have hrec := ih i2 (Nat.lt_of_succ_lt_succ hi) hm
        (fun j hj => hbefore (j + 1) (Nat.succ_lt_succ hj))
      simp [List.find?_cons, h0]
      exact hrec

/-- When no entry has a `master` key, the loop finds nothing and
`build_header` falls back to `nameservers[0]`. -/
theorem pickPrimary_no_master (l : List Nameserver) (h : ∀ ns ∈ l, ns.master = none) :
    pickPrimary l = l.head?.map Nameserver.hostname := by
  have hf : l.find? (fun ns => ns.master.isSome) = none :=
    List.find?_eq_none.mpr (fun x hx => by simp [h x hx])
  cases l with
  | nil => simp [pickPrimary, hf]
  | cons a rest => simp [pickPrimary, hf]

/-- C4: the SOA primary nameserver is the hostname of the first
`nameservers` entry whose `master` key is present (presence, not value:
`some false` still selects it); with no such entry, the hostname of
entry 0 is used; and the SOA line printed by `build_header` is
`<origin> IN SOA <primary>.<domainBase> <mail> (` with `<origin>` being
`domainBase` under `dont_abbrev` and `@` otherwise.  The claim's example
`[ns2, ns1 master]` selects `ns1`. -/
theorem c4_primary_selection (d : ZoneDef) (da : Bool) (pri : String)
    (hp : pickPrimary d.nameservers = some pri)
    (nss : List Nameserver) (i : Nat) (hi : i < nss.length)
    (hm : (nss.get ⟨i, hi⟩).master.isSome = true)
    (hbefore : ∀ j (hj : j < i), (nss.get ⟨j, Nat.lt_trans hj hi⟩).master = none) :
    build_header d da = Except.ok
      [(Sink.given, "$TTL " ++ d.ttl), (Sink.given, ""),
       (Sink.given, (if da then d.domainBase else "@") ++ " IN SOA " ++ pri ++ "."
          ++ d.domainBase ++ " " ++ d.soa.mail ++ " ("),
       (Sink.given, "    " ++ d.soa.refresh ++ "  ; refresh"),
       (Sink.given, "    " ++ d.soa.retry ++ "  ; retry"),
       (Sink.given, "    " ++ d.soa.expire ++ "  ; expire"),
       (Sink.given, "    " ++ d.soa.ttl ++ "  ; ttl"),
       (Sink.given, ")"), (Sink.given, "")]
    ∧ pickPrimary nss = some (nss.get ⟨i, hi⟩).hostname
    ∧ (∀ l : List Nameserver, (∀ ns ∈ l, ns.master = none) →
        pickPrimary l = l.head?.map Nameserver.hostname)
    ∧ pickPrimary [⟨"ns2", none⟩, ⟨"ns1", some true⟩] = some "ns1"
    ∧ pickPrimary [⟨"ns2", none⟩, ⟨"ns1", some false⟩] = some "ns1" := by
  refine ⟨?_, ?_, fun l hl => pickPrimary_no_master l hl, by rfl, by rfl⟩
  · simp [build_header, hp]
  · simp [pickPrimary, find?_master_eq_get nss i hi hm hbefore]

/-- Witness for C4 at the claim's example list. -/
theorem c4_primary_selection_witness :
    (pickPrimary zdoc.nameservers = some "ns1") ∧
    (([⟨"ns2", none⟩, ⟨"ns1", some true⟩] : List Nameserver).get
        ⟨1, by decide⟩).master.isSome = true ∧
    (build_header zdoc false = Except.ok
      [(Sink.given, "$TTL " ++ zdoc.ttl), (Sink.given, ""),
       (Sink.given, (if false then zdoc.domainBase else "@") ++ " IN SOA " ++ "ns1" ++ "."
          ++ zdoc.domainBase ++ " " ++ zdoc.soa.mail ++ " ("),
       (Sink.given, "    " ++ zdoc.soa.refresh ++ "  ; refresh"),
       (Sink.given, "    " ++ zdoc.soa.retry ++ "  ; retry"),
       (Sink.given, "    " ++ zdoc.soa.expire ++ "  ; expire"),
       (Sink.given, "    " ++ zdoc.soa.ttl ++ "  ; ttl"),
       (Sink.given, ")"), (Sink.given, "")]
    ∧ pickPrimary [⟨"ns2", none⟩, ⟨"ns1", some true⟩]
        = some (([⟨"ns2", none⟩, ⟨"ns1", some true⟩] : List Nameserver).get ⟨1, by decide⟩).hostname
    ∧ (∀ l : List Nameserver, (∀ ns ∈ l, ns.master = none) →
        pickPrimary l = l.head?.map Nameserver.hostname)
    ∧ pickPrimary [⟨"ns2", none⟩, ⟨"ns1", some true⟩] = some "ns1"
    ∧ pickPrimary [⟨"ns2", none⟩, ⟨"ns1", some false⟩] = some "ns1") :=
  ⟨by rfl, by rfl,
   c4_primary_selection zdoc false "ns1" (by rfl)
     [⟨"ns2", none⟩, ⟨"ns1", some true⟩] 1 (by decide) (by rfl)
     (by
        intro j hj
        cases j with
        | zero => rfl
        | succ n => exact absurd hj (by omega))⟩

/-- Single-character replacement by `'.'` leaves a string with no `@`
unchanged. -/
theorem mailReplace_of_no_at (s : String) (h : '@' ∉ s.data) : mailReplace s = s := by
  obtain ⟨data⟩ := s
  unfold mailReplace
  congr 1
  calc data.map (fun c => if c = '@' then '.' else c)
      = data.map id := List.map_congr_left (fun a ha => by
        have : a ≠ '@' := fun heq => h (heq ▸ ha)
        simp [this])
    _ = data := List.map_id data

/-- C5: mail normalization replaces every `@` by `.` and appends one
`.`; on the example `admin@example.com` it yields
`admin.example.com.`; on a string with no `@` it is exactly the string
plus one trailing dot, so a second application adds a second trailing
dot and the function is not idempotent. -/
theorem c5_mail_normalization (s : String) (h : '@' ∉ s.data) :
    normalizeMail "admin@example.com" = "admin.example.com."
    ∧ normalizeMail s = s ++ "."
    ∧ normalizeMail (normalizeMail s) = normalizeMail s ++ "."
    ∧ normalizeMail (normalizeMail s) ≠ normalizeMail s := by
  have h2 : normalizeMail s = s ++ "." := by
    unfold normalizeMail
    rw [mailReplace_of_no_at s h]
  have hna : '@' ∉ (s ++ ".").data := by
    rw [String.data_append]
    intro hmem
    rcases List.mem_append.mp hmem with hmem1 | hmem2
    · exact h hmem1
    · simp at hmem2
  have h3 : normalizeMail (normalizeMail s) = normalizeMail s ++ "." := by
    rw [h2]
    unfold normalizeMail
    rw [mailReplace_of_no_at _ hna]
  refine ⟨by rfl, h2, h3, ?_⟩
  rw [h3]
  intro heq
  have hlen := congrArg String.length heq
  rw [String.length_append] at hlen
  have hone : ".".length = 1 := rfl
  rw [hone] at hlen
  omega

/-- Witness for C5 at an already-normalized mail string. -/
theorem c5_mail_normalization_witness :
    ('@' ∉ "admin.example.com".data)
    ∧ (normalizeMail "admin@example.com" = "admin.example.com."
       ∧ normalizeMail "admin.example.com" = "admin.example.com" ++ "."
       ∧ normalizeMail (normalizeMail "admin.example.com")
           = normalizeMail "admin.example.com" ++ "."
       ∧ normalizeMail (normalizeMail "admin.example.com")
           ≠ normalizeMail "admin.example.com") :=
  ⟨by decide, c5_mail_normalization "admin.example.com" (by decide)⟩

/-- Updating a present key makes `lookup` return the new value. -/
theorem lookup_setKey_self (kvs : Kvs) (k : String) (v w : YVal)
    (h : lookup kvs k = some w) : lookup (setKey kvs k v) k = some v := by
  induction kvs with
  | nil => simp [lookup] at h
  | cons p rest ih =>
    obtain ⟨p1, p2⟩ := p
    simp only [setKey, List.map_cons]
    by_cases hk : p1 = k
    · rw [if_pos hk]
      simp [lookup]
    · rw [if_neg hk]
      simp only [lookup, if_neg hk] at h ⊢
      exact ih h

/-- Updating one key leaves `lookup` at any other key unchanged. -/
theorem lookup_setKey_ne (kvs : Kvs) (k k2 : String) (v : YVal) (h : k2 ≠ k) :
    lookup (setKey kvs k v) k2 = lookup kvs k2 := by
  induction kvs with
  | nil => rfl
  | cons p rest ih =>
    obtain ⟨p1, p2⟩ := p
    simp only [setKey, List.map_cons]
    by_cases hk : p1 = k
    · subst hk
      rw [if_pos rfl]
      have hne : ¬ (p1 = k2) := fun he => h he.symm
      simp only [lookup, if_neg hne]
      exact ih
    · rw [if_neg hk]
      simp only [lookup]
      by_cases h2 : p1 = k2
      · rw [if_pos h2, if_pos h2]
      · rw [if_neg h2, if_neg h2]
        exact ih

/-- A successful `normEntry` yields a mapping whose `hostname` is a
string with no `.` in it. -/
theorem normEntry_shape (e e2 : YVal) (h : normEntry e = some e2) :
    ∃ kvs h2, e2 = YVal.dict kvs ∧ lookup kvs "hostname" = some (YVal.str h2)
      ∧ ∀ c ∈ h2.data, c ≠ '.' := by
  simp only [normEntry, Option.pure_def, Option.bind_eq_bind, Option.bind_eq_some,
    Option.some.injEq] at h
  obtain ⟨kvs0, hkvs0, hv, hhv, h0, hh0, he2⟩ := h
  have hv0 : hv = YVal.str h0 := by
    cases hv <;> simp [YVal.asStr] at hh0
    exact hh0.symm ▸ rfl
  subst hv0
  by_cases hdot : '.' ∈ h0.data
  · rw [if_pos hdot] at he2
    refine ⟨_, ⟨h0.data.takeWhile (fun c => c ≠ '.')⟩, he2.symm,
      lookup_setKey_self kvs0 "hostname" _ _ hhv, ?_⟩
    intro c hc
    have := List.mem_takeWhile_imp hc
    simpa using this
  · rw [if_neg hdot] at he2
    exact ⟨kvs0, h0, he2.symm, hhv, fun c hc heq => hdot (heq ▸ hc)⟩

/-- Every element of a successful `mapNorm` result comes from applying
`normEntry` to an element of the input list. -/
theorem mapNorm_mem_shape (l l2 : List YVal) (h : mapNorm l = some l2) :
    ∀ e2 ∈ l2, ∃ e ∈ l, normEntry e = some e2 := by
  induction l generalizing l2 with
  | nil =>
    simp [mapNorm] at h
    subst h
    intro e2 he2
    simp at he2
  | cons e rest ih =>
    cases hne : normEntry e with
    | none => simp [mapNorm, hne] at h
    | some e3 =>
      cases hrest : mapNorm rest with
      | none => simp [mapNorm, hne, hrest] at h
      | some r2 =>
        obtain rfl : e3 :: r2 = l2 := by simpa [mapNorm, hne, hrest] using h
        intro e2 he2
        rcases List.mem_cons.mp he2 with he2 | he2
        · exact ⟨e, List.mem_cons_self e rest, he2 ▸ hne⟩
        · obtain ⟨e4, he4, hne4⟩ := ih r2 hrest e2 he2
          exact ⟨e4, List.mem_cons_of_mem e he4, hne4⟩

/-- Success of `normEntry` on a mapping entry whose `hostname` is a
string. -/
theorem normEntry_isSome (kvs : Kvs) (h2 : String)
    (hh : lookup kvs "hostname" = some (YVal.str h2)) :
    (normEntry (YVal.dict kvs)).isSome := by
  simp [normEntry, YVal.asDict, hh, YVal.asStr]

/-- Success of `mapNorm` when `normEntry` succeeds on every element. -/
theorem mapNorm_of_all (l : List YVal) (h : ∀ e ∈ l, (normEntry e).isSome) :
    ∃ l2, mapNorm l = some l2 := by
  induction l with
  | nil => exact ⟨[], rfl⟩
  | cons e rest ih =>
    obtain ⟨e2, he2⟩ := Option.isSome_iff_exists.mp (h e (List.mem_cons_self e rest))
    obtain ⟨r2, hr2⟩ := ih (fun x hx => h x (List.mem_cons_of_mem e hx))
    exact ⟨e2 :: r2, by simp [mapNorm, he2, hr2]⟩

/-- After a successful `normalize`, the `nameservers` and `hosts` lists
of the result consist of mappings whose `hostname` is a dot-free
string. -/
theorem normalize_hostnames_clean (d d' : Kvs) (hn : normalize d = some d')
    (key : String) (hkey : key = "nameservers" ∨ key = "hosts")
    (l : List YVal) (hl : lookup d' key = some (YVal.list l)) :
    ∀ e ∈ l, ∃ kvs h2, e = YVal.dict kvs ∧ lookup kvs "hostname" = some (YVal.str h2)
      ∧ ∀ c ∈ h2.data, c ≠ '.' := by
  simp only [normalize, Option.pure_def, Option.bind_eq_bind, Option.bind_eq_some,
    Option.some.injEq] at hn
  obtain ⟨soaV, hsoaV, soaKvs, hsoaKvs, mailV, hmailV, mail, hmail,
    nssV, hnssV, nss, hnss, nss2, hnss2, hsV, hhsV, hs, hhs, hs2, hhs2, hd'⟩ := hn
  have hnssV2 : nssV = YVal.list nss := by
    cases nssV <;> simp [YVal.asList] at hnss
    exact hnss.symm ▸ rfl
  have hhsV2 : hsV = YVal.list hs := by
    cases hsV <;> simp [YVal.asList] at hhs
    exact hhs.symm ▸ rfl
  subst hnssV2 hhsV2 hd'
  rcases hkey with hkey | hkey <;> subst hkey
  · have hne : "nameservers" ≠ "hosts" := by decide
    rw [lookup_setKey_ne _ _ _ _ hne] at hl
    have : lookup (setKey _ "nameservers" (YVal.list nss2)) "nameservers"
        = some (YVal.list nss2) := lookup_setKey_self _ _ _ _ hnssV
    rw [this] at hl
    obtain hl2 : nss2 = l := by injection hl with h1; injection h1
    subst hl2
    intro e he
    obtain ⟨e0, he0, hne0⟩ := mapNorm_mem_shape _ _ hnss2 e he
    exact normEntry_shape e0 e hne0
  · have : lookup (setKey _ "hosts" (YVal.list hs2)) "hosts"
        = some (YVal.list hs2) := lookup_setKey_self _ _ _ _ hhsV
    rw [this] at hl
    obtain hl2 : hs2 = l := by injection hl with h1; injection h1
    subst hl2
    intro e he
    obtain ⟨e0, he0, hne0⟩ := mapNorm_mem_shape _ _ hhs2 e he
    exact normEntry_shape e0 e hne0

/-- C6: hostname normalization leaves a dot-free hostname unchanged,
replaces a dotted hostname by the prefix before its first `.` (the
result never contains a `.`, and the original is that prefix followed by
`.` and a remainder), `ns1.example.com` becomes `ns1`; and after a
successful `normalize`, every `hostname` of every `nameservers` and
`hosts` entry of the document is a dot-free string label. -/
theorem c6_hostname_normalization (s : String) (d d' : Kvs)
    (hn : normalize d = some d') :
    ('.' ∉ s.data → normalizeHostname s = s)
    ∧ (∀ c ∈ (normalizeHostname s).data, c ≠ '.')
    ∧ ('.' ∈ s.data → ∃ rest : List Char,
        s.data = (normalizeHostname s).data ++ '.' :: rest)
    ∧ normalizeHostname "ns1.example.com" = "ns1"
    ∧ (∀ key, key = "nameservers" ∨ key = "hosts" →
        ∀ l, lookup d' key = some (YVal.list l) →
        ∀ e ∈ l, ∃ kvs h2, e = YVal.dict kvs
          ∧ lookup kvs "hostname" = some (YVal.str h2)
          ∧ ∀ c ∈ h2.data, c ≠ '.') := by
  refine ⟨fun hnd => by simp [normalizeHostname, hnd], ?_, ?_, by rfl,
    fun key hkey l hl => normalize_hostnames_clean d d' hn key hkey l hl⟩
  · intro c hc
    by_cases hdot : '.' ∈ s.data
    · rw [normalizeHostname, if_pos hdot] at hc
      have := List.mem_takeWhile_imp (l := s.data) (p := fun c => c ≠ '.')
        (by simpa using hc)
      simpa using this
    · rw [normalizeHostname, if_neg hdot] at hc
      exact fun heq => hdot (heq ▸ hc)
  · intro hdot
    have hsplit := List.takeWhile_append_dropWhile (fun c => c ≠ '.') s.data
    have hdne : s.data.dropWhile (fun c => c ≠ '.') ≠ [] := by
      intro h0
      rw [h0, List.append_nil] at hsplit
      have := List.mem_takeWhile_imp (p := fun c => c ≠ '.') (hsplit ▸ hdot)
      simp at this
    have hhead := List.head_dropWhile_not (fun c => c ≠ '.') s.data hdne
    have hheadEq : (s.data.dropWhile (fun c => c ≠ '.')).head hdne = '.' := by
      simpa using hhead
    refine ⟨(s.data.dropWhile (fun c => c ≠ '.')).tail, ?_⟩
    have hval : (normalizeHostname s).data = s.data.takeWhile (fun c => c ≠ '.') := by
      rw [normalizeHostname, if_pos hdot]
    rw [hval]
    conv_lhs => rw [← hsplit]
    congr 1
    conv_lhs => rw [← List.head_cons_tail _ hdne]
    rw [hheadEq]

/-- Witness for C6 at a small document. -/
theorem c6_hostname_normalization_witness :
    (normalize
        [("soa", YVal.dict [("mail", YVal.str "admin@example.com")]),
         ("nameservers", YVal.list [YVal.dict [("hostname", YVal.str "ns1.example.com")]]),
         ("hosts", YVal.list [YVal.dict [("hostname", YVal.str "www"), ("ip", YVal.str "10.0.0.5")]])]
      = some
        [("soa", YVal.dict [("mail", YVal.str "admin.example.com.")]),
         ("nameservers", YVal.list [YVal.dict [("hostname", YVal.str "ns1")]]),
         ("hosts", YVal.list [YVal.dict [("hostname", YVal.str "www"), ("ip", YVal.str "10.0.0.5")]])])
    ∧ (('.' ∉ "ns1.example.com".data → normalizeHostname "ns1.example.com" = "ns1.example.com")
    ∧ (∀ c ∈ (normalizeHostname "ns1.example.com").data, c ≠ '.')
    ∧ ('.' ∈ "ns1.example.com".data → ∃ rest : List Char,
        "ns1.example.com".data = (normalizeHostname "ns1.example.com").data ++ '.' :: rest)
    ∧ normalizeHostname "ns1.example.com" = "ns1"
    ∧ (∀ key, key = "nameservers" ∨ key = "hosts" →
        ∀ l, lookup
          [("soa", YVal.dict [("mail", YVal.str "admin.example.com.")]),
           ("nameservers", YVal.list [YVal.dict [("hostname", YVal.str "ns1")]]),
           ("hosts", YVal.list [YVal.dict [("hostname", YVal.str "www"), ("ip", YVal.str "10.0.0.5")]])]
          key = some (YVal.list l) →
        ∀ e ∈ l, ∃ kvs h2, e = YVal.dict kvs
          ∧ lookup kvs "hostname" = some (YVal.str h2)
          ∧ ∀ c ∈ h2.data, c ≠ '.')) :=
  ⟨by rfl,
   c6_hostname_normalization "ns1.example.com"
     [("soa", YVal.dict [("mail", YVal.str "admin@example.com")]),
      ("nameservers", YVal.list [YVal.dict [("hostname", YVal.str "ns1.example.com")]]),
      ("hosts", YVal.list [YVal.dict [("hostname", YVal.str "www"), ("ip", YVal.str "10.0.0.5")]])]
     [("soa", YVal.dict [("mail", YVal.str "admin.example.com.")]),
      ("nameservers", YVal.list [YVal.dict [("hostname", YVal.str "ns1")]]),
      ("hosts", YVal.list [YVal.dict [("hostname", YVal.str "www"), ("ip", YVal.str "10.0.0.5")]])]
     (by rfl)⟩

/-- The claim's description of a fatally invalid document: a top-level
required key missing or mistyped, or `domainBase` not ending with `.`,
or a required `soa` key missing or mistyped. -/
def fatalViolation (d : Kvs) : Prop :=
  (∃ p ∈ TOP_LEVEL_REQUIRED,
     match lookup d p.1 with
     | none => True
     | some v => isinstance v p.2 = false)
  ∨ (∃ s, lookup d "domainBase" = some (YVal.str s) ∧ endsWithDot s = false)
  ∨ (∃ soa, lookup d "soa" = some (YVal.dict soa) ∧
       ∃ p ∈ SOA_REQUIRED,
         match lookup soa p.1 with
         | none => True
         | some v => ∀ t ∈ p.2, isinstance v t = false)

/-- A bad entry in the top-level table makes the top-level loop produce
a diagnostic. -/
theorem checkTops_isSome_of_bad (d : Kvs) (reqs : List (String × PyTy))
    (h : ∃ p ∈ reqs,
      match lookup d p.1 with
      | none => True
      | some v => isinstance v p.2 = false) :
    (checkTops d reqs).isSome = true := by
  induction reqs with
  | nil =>
    obtain ⟨p, hp, _⟩ := h
    simp at hp
  | cons q rest ih =>
    obtain ⟨p, hp, hbad⟩ := h
    obtain ⟨k, ty⟩ := q
    rcases List.mem_cons.mp hp with rfl | hp2
    · cases hl : lookup d k with
      | none => simp [checkTops, hl]
      | some v =>
        have hb : (match lookup d k with
          | none => True
          | some v => isinstance v ty = false) := hbad
        rw [hl] at hb
        have hb2 : isinstance v ty = false := hb
        simp [checkTops, hl, hb2]
    · cases hl : lookup d k with
      | none => simp [checkTops, hl]
      | some v =>
        cases hins : isinstance v ty with
        | true =>
          simp [checkTops, hl, hins]
          exact ih ⟨p, hp2, hbad⟩
        | false => simp [checkTops, hl, hins]

/-- A clean top-level loop means every required key is present with the
required type. -/
theorem checkTops_none_sound (d : Kvs) (reqs : List (String × PyTy))
    (h : checkTops d reqs = none) :
    ∀ p ∈ reqs, ∃ v, lookup d p.1 = some v ∧ isinstance v p.2 = true := by
  induction reqs with
  | nil => intro p hp; simp at hp
  | cons q rest ih =>
    obtain ⟨k, ty⟩ := q
    intro p hp
    cases hl : lookup d k with
    | none => simp [checkTops, hl] at h
    | some v =>
      cases hins : isinstance v ty with
      | false => simp [checkTops, hl, hins] at h
      | true =>
        have h2 : checkTops d rest = none := by simpa [checkTops, hl, hins] using h
        rcases List.mem_cons.mp hp with rfl | hp2
        · exact ⟨v, hl, hins⟩
        · exact ih h2 p hp2

/-- A bad entry in the SOA table makes the SOA loop produce a
diagnostic. -/
theorem checkSoaReq_isSome_of_bad (soa : Kvs) (reqs : List (String × List PyTy))
    (h : ∃ p ∈ reqs,
      match lookup soa p.1 with
      | none => True
      | some v => ∀ t ∈ p.2, isinstance v t = false) :
    (checkSoaReq soa reqs).isSome = true := by
  induction reqs with
  | nil =>
    obtain ⟨p, hp, _⟩ := h
    simp at hp
  | cons q rest ih =>
    obtain ⟨p, hp, hbad⟩ := h
    obtain ⟨k, tys⟩ := q
    rcases List.mem_cons.mp hp with rfl | hp2
    · cases hl : lookup soa k with
      | none => simp [checkSoaReq, hl]
      | some v =>
        have hb : (match lookup soa k with
          | none => True
          | some v => ∀ t ∈ tys, isinstance v t = false) := hbad
        rw [hl] at hb
        have hany : tys.any (fun t => isinstance v t) = false := by
          rw [List.any_eq_false]
          exact fun t ht => by
            simp [(hb : ∀ t ∈ tys, isinstance v t = false) t ht]
        simp [checkSoaReq, hl, hany]
    · cases hl : lookup soa k with
      | none => simp [checkSoaReq, hl]
      | some v =>
        cases hany : tys.any (fun t => isinstance v t) with
        | true =>
          simp [checkSoaReq, hl, hany]
          exact ih ⟨p, hp2, hbad⟩
        | false => simp [checkSoaReq, hl, hany]

/-- C7: a document with a missing or mistyped top-level required key,
or a `domainBase` that does not end in `.`, or a missing or mistyped
required `soa` key, makes `parse_yml` terminate the process with exit
status 1 at the first offending check (exactly one diagnostic is
printed and the function never returns a document, so no zone-file
output can be written). -/
theorem c7_fatal_checks_exit (d : Kvs) (h : fatalViolation d) :
    (parse_yml d).2 = Except.error 1 ∧ (parse_yml d).1.length = 1 := by
  rcases h with htop | hdb | hsoa
  · obtain ⟨g, hg⟩ := Option.isSome_iff_exists.mp (checkTops_isSome_of_bad d _ htop)
    simp [parse_yml, hg]
  · cases hct : checkTops d TOP_LEVEL_REQUIRED with
    | some g => simp [parse_yml, hct]
    | none =>
      obtain ⟨s, hls, hend⟩ := hdb
      simp [parse_yml, hct, hls, hend]
  · cases hct : checkTops d TOP_LEVEL_REQUIRED with
    | some g => simp [parse_yml, hct]
    | none =>
      obtain ⟨soa, hlsoa, hbad⟩ := hsoa
      obtain ⟨v, hv, hins⟩ := checkTops_none_sound d _ hct ("domainBase", PyTy.str)
        (by decide)
      have hvs : ∃ s, v = YVal.str s := by
        cases v <;> simp [isinstance] at hins
        exact ⟨_, rfl⟩
      obtain ⟨s, rfl⟩ := hvs
      cases hend : endsWithDot s with
      | false => simp [parse_yml, hct, hv, hend]
      | true =>
        obtain ⟨g, hg⟩ :=
          Option.isSome_iff_exists.mp (checkSoaReq_isSome_of_bad soa _ hbad)
        simp [parse_yml, hct, hv, hend, hlsoa, hg]

/-- Witness for C7 at the empty document (missing `ttl`). -/
theorem c7_fatal_checks_exit_witness :
    fatalViolation ([] : Kvs)
    ∧ ((parse_yml ([] : Kvs)).2 = Except.error 1
        ∧ (parse_yml ([] : Kvs)).1.length = 1) :=
  ⟨Or.inl ⟨("ttl", PyTy.str), by decide, trivial⟩,
   c7_fatal_checks_exit ([] : Kvs) (Or.inl ⟨("ttl", PyTy.str), by decide, trivial⟩)⟩

/-- Every diagnostic of the top-level loop goes to standard output
(the source omits `file=sys.stderr` on those `print` calls). -/
theorem checkTops_stream (d : Kvs) (reqs : List (String × PyTy)) (g : Diag)
    (h : checkTops d reqs = some g) : g.1 = StdStream.stdout := by
  induction reqs with
  | nil => simp [checkTops] at h
  | cons q rest ih =>
    obtain ⟨k, ty⟩ := q
    cases hl : lookup d k with
    | none =>
      simp [checkTops, hl] at h
      subst h
      rfl
    | some v =>
      cases hins : isinstance v ty with
      | true =>
        simp [checkTops, hl, hins] at h
        exact ih h
      | false =>
        simp [checkTops, hl, hins] at h
        subst h
        rfl

/-- Every diagnostic of the SOA required-key loop goes to standard
output. -/
theorem checkSoaReq_stream (soa : Kvs) (reqs : List (String × List PyTy)) (g : Diag)
    (h : checkSoaReq soa reqs = some g) : g.1 = StdStream.stdout := by
  induction reqs with
  | nil => simp [checkSoaReq] at h
  | cons q rest ih =>
    obtain ⟨k, tys⟩ := q
    cases hl : lookup soa k with
    | none =>
      simp [checkSoaReq, hl] at h
      subst h
      rfl
    | some v =>
      cases hany : tys.any (fun t => isinstance v t) with
      | true =>
        simp [checkSoaReq, hl, hany] at h
        exact ih h
      | false =>
        simp [checkSoaReq, hl, hany] at h
        subst h
        rfl

/-- The `soa.serial` diagnostic goes to standard output. -/
theorem checkSerial_stream (soa : Kvs) (g : Diag)
    (h : checkSerial soa = some g) : g.1 = StdStream.stdout := by
  unfold checkSerial at h
  cases hl : lookup soa "serial" with
  | none => rw [hl] at h; simp at h
  | some v =>
    rw [hl] at h
    cases hins : isinstance v PyTy.int with
    | true => simp [hins] at h
    | false =>
      simp [hins] at h
      subst h
      rfl

/-- Every diagnostic of one entry's key loop goes to standard output. -/
theorem keyDiags_stream (label : String) (i : Nat) (e : YVal) (ks : List String)
    (gs : List Diag) (h : keyDiags label i e ks = some gs) :
    ∀ g ∈ gs, g.1 = StdStream.stdout := by
  induction ks generalizing gs with
  | nil =>
    simp [keyDiags] at h
    subst h
    intro g hg
    simp at hg
  | cons k ks2 ih =>
    cases hm : memY k e with
    | none => simp [keyDiags, hm] at h
    | some b =>
      cases b with
      | true =>
        have h2 : keyDiags label i e ks2 = some gs := by simpa [keyDiags, hm] using h
        exact ih gs h2
      | false =>
        cases hk2 : keyDiags label i e ks2 with
        | none => simp [keyDiags, hm, hk2] at h
        | some gs2 =>
          simp [keyDiags, hm, hk2] at h
          subst h
          intro g hg
          rcases List.mem_cons.mp hg with rfl | hg2
          · rfl
          · exact ih gs2 hk2 g hg2

/-- Every diagnostic of the list-entry loops goes to standard output. -/
theorem entryDiagsAux_stream (label : String) (ks : List String) (n : Nat)
    (l : List YVal) : ∀ g ∈ (entryDiagsAux label ks n l).1, g.1 = StdStream.stdout := by
  induction l generalizing n with
  | nil =>
    intro g hg
    simp [entryDiagsAux] at hg
  | cons e rest ih =>
    intro g hg
    cases hk : keyDiags label n e ks with
    | none => simp [entryDiagsAux, hk] at hg
    | some gs =>
      simp only [entryDiagsAux, hk] at hg
      rcases List.mem_append.mp hg with hg1 | hg2
      · exact keyDiags_stream label n e ks gs hk g hg1
      · exact ih (n + 1) g hg2

/-- C8 counterexample: the schema validator's diagnostic for the
document missing `ttl` is printed to standard output, which is not the
error stream. -/
theorem c8_counterexample_schema_diag_on_stdout :
    (parse_yml ([] : Kvs)).1
      = [(StdStream.stdout, "[ERROR] Required key \"ttl\" Not Found")]
    ∧ StdStream.stdout ≠ StdStream.stderr :=
  ⟨by rfl, by decide⟩

/-- C8 amended: every diagnostic produced by the schema validator
(missing or mistyped top-level key, `domainBase` shape, missing or
mistyped `soa` key, missing list-entry key) is written to standard
output, not to the error stream; only the file-not-found and YAML-parse
diagnostics, produced before the schema validator runs, go to the error
stream. -/
theorem c8_amended_validator_diags_on_stdout (d : Kvs) (g : Diag)
    (hg : g ∈ (parse_yml d).1) :
    g.1 = StdStream.stdout
    ∧ fileNotFoundDiag.1 = StdStream.stderr
    ∧ yamlParseErrorDiag.1 = StdStream.stderr := by
  refine ⟨?_, rfl, rfl⟩
  revert hg
  unfold parse_yml
  cases hct : checkTops d TOP_LEVEL_REQUIRED with
  | some g0 =>
    intro hg
    have hgg : g = g0 := by simpa using hg
    rw [hgg]
    exact checkTops_stream d _ g0 hct
  | none =>
    cases hdb : lookup d "domainBase" with
    | none => intro hg; simp at hg
    | some v =>
      cases v with
      | str dB =>
        dsimp only
        by_cases hend : endsWithDot dB = true
        · rw [if_pos hend]
          cases hsoa : lookup d "soa" with
          | none => intro hg; simp at hg
          | some w =>
            cases w with
            | dict soa =>
              dsimp only
              cases hreq : checkSoaReq soa SOA_REQUIRED with
              | some g1 =>
                intro hg
                have hgg : g = g1 := by simpa using hg
                rw [hgg]
                exact checkSoaReq_stream soa _ g1 hreq
              | none =>
                cases hser : checkSerial soa with
                | some g2 =>
                  intro hg
                  have hgg : g = g2 := by simpa using hg
                  rw [hgg]
                  exact checkSerial_stream soa g2 hser
                | none =>
                  cases hnss : lookup d "nameservers" with
                  | none => intro hg; simp at hg
                  | some nv =>
                    cases nv with
                    | list nss =>
                      dsimp only
                      cases hhs : lookup d "hosts" with
                      | none => intro hg; simp at hg
                      | some hv =>
                        cases hv with
                        | list hs =>
                          dsimp only
                          by_cases hc1 : (entryDiags "nameservers" NS_REQUIRED nss).2 = true
                          · rw [if_pos hc1]
                            intro hg
                            exact entryDiagsAux_stream _ _ _ _ g hg
                          · rw [if_neg hc1]
                            by_cases hc2 : (entryDiags "hosts" HOST_REQUIRED hs).2 = true
                            · rw [if_pos hc2]
                              intro hg
                              rcases List.mem_append.mp hg with hg1 | hg1
                              · exact entryDiagsAux_stream _ _ _ _ g hg1
                              · exact entryDiagsAux_stream _ _ _ _ g hg1
                            · rw [if_neg hc2]
                              cases hnorm : normalize d with
                              | some d2 =>
                                intro hg
                                rcases List.mem_append.mp hg with hg1 | hg1
                                · exact entryDiagsAux_stream _ _ _ _ g hg1
                                · exact entryDiagsAux_stream _ _ _ _ g hg1
                              | none =>
                                intro hg
                                rcases List.mem_append.mp hg with hg1 | hg1
                                · exact entryDiagsAux_stream _ _ _ _ g hg1
                                · exact entryDiagsAux_stream _ _ _ _ g hg1
                        | str s2 => intro hg; simp at hg
                        | int n2 => intro hg; simp at hg
                        | bool b2 => intro hg; simp at hg
                        | null => intro hg; simp at hg
                        | dict kv2 => intro hg; simp at hg
                    | str s2 => intro hg; simp at hg
                    | int n2 => intro hg; simp at hg
                    | bool b2 => intro hg; simp at hg
                    | null => intro hg; simp at hg
                    | dict kv2 => intro hg; simp at hg
            | str s2 => intro hg; simp at hg
            | int n2 => intro hg; simp at hg
            | bool b2 => intro hg; simp at hg
            | null => intro hg; simp at hg
            | list l2 => intro hg; simp at hg
        · rw [if_neg hend]
          intro hg
          have hgg : g = (StdStream.stdout,
              "[ERROR] domainBase must be FQDN, end with \".\"") := by simpa using hg
          rw [hgg]
      | int n2 => intro hg; simp at hg
      | bool b2 => intro hg; simp at hg
      | null => intro hg; simp at hg
      | list l2 => intro hg; simp at hg
      | dict kv2 => intro hg; simp at hg

/-- Witness for C8's amended claim at the document missing `ttl`. -/
theorem c8_amended_validator_diags_on_stdout_witness :
    ((StdStream.stdout, "[ERROR] Required key \"ttl\" Not Found") : Diag)
        ∈ (parse_yml ([] : Kvs)).1
    ∧ (((StdStream.stdout, "[ERROR] Required key \"ttl\" Not Found") : Diag).1
          = StdStream.stdout
       ∧ fileNotFoundDiag.1 = StdStream.stderr
       ∧ yamlParseErrorDiag.1 = StdStream.stderr) :=
  ⟨by decide,
   c8_amended_validator_diags_on_stdout ([] : Kvs)
     (StdStream.stdout, "[ERROR] Required key \"ttl\" Not Found") (by decide)⟩

/-- A document that passes every fatal check but whose only nameserver
entry lacks `hostname`. -/
def missingNsHostnameDoc : Kvs :=
  [("ttl", YVal.str "1d"), ("domainBase", YVal.str "example.com."),
   ("networkBase", YVal.str "10.0.0"),
   ("soa", YVal.dict [("mail", YVal.str "a@b"), ("refresh", YVal.int 1),
     ("retry", YVal.int 2), ("expire", YVal.int 3), ("ttl", YVal.int 4)]),
   ("nameservers", YVal.list [YVal.dict []]),
   ("hosts", YVal.list [])]

/-- C9 counterexample: on a document passing all fatal checks whose
nameserver entry has no `hostname`, the validator does print the
entry diagnostic and does not exit there — but `parse_yml` then calls
`normalize`, which evaluates `ns['hostname']` and raises `KeyError`, so
the process terminates with exit status 1 instead of returning the
normalized document. -/
theorem c9_counterexample_missing_hostname_crashes :
    parse_yml missingNsHostnameDoc
      = ([(StdStream.stdout,
          "[ERROR] Required key \"nameservers[0].hostname\" Not Found")],
         Except.error 1)
    ∧ normalize missingNsHostnameDoc = none :=
  ⟨by rfl, by rfl⟩

/-- The key loop never crashes on a mapping entry. -/
theorem keyDiags_dict_isSome (label : String) (i : Nat) (kvs : Kvs) (ks : List String) :
    (keyDiags label i (YVal.dict kvs) ks).isSome = true := by
  induction ks with
  | nil => rfl
  | cons k ks2 ih =>
    cases hb : (lookup kvs k).isSome with
    | true => simpa [keyDiags, memY, hb] using ih
    | false =>
      simp only [keyDiags, memY, hb]
      cases hk2 : keyDiags label i (YVal.dict kvs) ks2 with
      | none => rw [hk2] at ih; simp at ih
      | some gs2 => simp

/-- The entry loop never crashes when every entry is a mapping. -/
theorem entryDiagsAux_no_crash (label : String) (ks : List String) (n : Nat)
    (l : List YVal) (hwf : ∀ e ∈ l, ∃ kvs, e = YVal.dict kvs) :
    (entryDiagsAux label ks n l).2 = false := by
  induction l generalizing n with
  | nil => rfl
  | cons e rest ih =>
    obtain ⟨kvs0, he0⟩ := hwf e (List.mem_cons_self e rest)
    subst he0
    cases hk : keyDiags label n (YVal.dict kvs0) ks with
    | none =>
      have := keyDiags_dict_isSome label n kvs0 ks
      rw [hk] at this
      simp at this
    | some gs =>
      simp only [entryDiagsAux, hk]
      exact ih (n + 1) (fun e2 he2 => hwf e2 (List.mem_cons_of_mem _ he2))

/-- A key required but absent from a mapping entry contributes its
diagnostic to the key loop's output. -/
theorem keyDiags_mem_of_missing (label : String) (i : Nat) (kvs : Kvs)
    (ks : List String) (k : String) (hk : k ∈ ks) (hmiss : lookup kvs k = none)
    (gs : List Diag) (hgs : keyDiags label i (YVal.dict kvs) ks = some gs) :
    (StdStream.stdout, "[ERROR] Required key \"" ++ label ++ "[" ++ toString i
      ++ "]." ++ k ++ "\" Not Found") ∈ gs := by
  induction ks generalizing gs with
  | nil => simp at hk
  | cons k2 ks2 ih =>
    rcases List.mem_cons.mp hk with rfl | hk2
    · have hb : (lookup kvs k).isSome = false := by simp [hmiss]
      simp only [keyDiags, memY, hb] at hgs
      cases hrest : keyDiags label i (YVal.dict kvs) ks2 with
      | none => rw [hrest] at hgs; simp at hgs
      | some gs2 =>
        rw [hrest] at hgs
        simp at hgs
        rw [← hgs]
        exact List.mem_cons_self _ _
    · cases hb : (lookup kvs k2).isSome with
      | true =>
        simp only [keyDiags, memY, hb] at hgs
        exact ih hk2 gs hgs
      | false =>
        simp only [keyDiags, memY, hb] at hgs
        cases hrest : keyDiags label i (YVal.dict kvs) ks2 with
        | none => rw [hrest] at hgs; simp at hgs
        | some gs2 =>
          rw [hrest] at hgs
          simp at hgs
          rw [← hgs]
          exact List.mem_cons_of_mem _ (ih hk2 gs2 hrest)

/-- The entry loop reports the diagnostic of every entry missing a
required key, at the entry's index, and keeps scanning the rest of the
list. -/
theorem entryDiags_mem_of_missing (label : String) (ks : List String)
    (k : String) (hk : k ∈ ks) (l : List YVal) :
    ∀ (n i : Nat) (hi : i < l.length) (kvs : Kvs),
      (∀ e ∈ l, ∃ kvs2, e = YVal.dict kvs2) →
      l.get ⟨i, hi⟩ = YVal.dict kvs → lookup kvs k = none →
      (StdStream.stdout, "[ERROR] Required key \"" ++ label ++ "[" ++ toString (n + i)
        ++ "]." ++ k ++ "\" Not Found") ∈ (entryDiagsAux label ks n l).1 := by
  induction l with
  | nil =>
    intro n i hi
    simp at hi
  | cons e rest ih =>
    intro n i hi kvs hwf he hmiss
    obtain ⟨kvs0, he0⟩ := hwf e (List.mem_cons_self e rest)
    cases hkd : keyDiags label n e ks with
    | none =>
      have := keyDiags_dict_isSome label n kvs0 ks
      rw [← he0, hkd] at this
      simp at this
    | some gs =>
      simp only [entryDiagsAux, hkd]
      cases i with
      | zero =>
        have he2 : e = YVal.dict kvs := he
        subst he2
        rw [Nat.add_zero]
        exact List.mem_append_left _
          (keyDiags_mem_of_missing label n kvs ks k hk hmiss gs hkd)
      | succ i2 =>
        have hrec := ih (n + 1) i2 (Nat.lt_of_succ_lt_succ hi) kvs
          (fun e2 he2 => hwf e2 (List.mem_cons_of_mem _ he2)) he hmiss
        have harith : n + 1 + i2 = n + (i2 + 1) := by omega
        rw [harith] at hrec
        exact List.mem_append_right _ hrec

/-- A clean SOA required-key loop means every required key is present
with one of the allowed types. -/
theorem checkSoaReq_none_sound (soa : Kvs) (reqs : List (String × List PyTy))
    (h : checkSoaReq soa reqs = none) :
    ∀ p ∈ reqs, ∃ v, lookup soa p.1 = some v
      ∧ p.2.any (fun t => isinstance v t) = true := by
  induction reqs with
  | nil => intro p hp; simp at hp
  | cons q rest ih =>
    obtain ⟨k, tys⟩ := q
    intro p hp
    cases hl : lookup soa k with
    | none => simp [checkSoaReq, hl] at h
    | some v =>
      cases hany : tys.any (fun t => isinstance v t) with
      | false => simp [checkSoaReq, hl, hany] at h
      | true =>
        have h2 : checkSoaReq soa rest = none := by simpa [checkSoaReq, hl, hany] using h
        rcases List.mem_cons.mp hp with rfl | hp2
        · exact ⟨v, hl, hany⟩
        · exact ih h2 p hp2

/-- Success of `normalize` when `soa.mail` is a string and every
nameserver and host entry is a mapping with a string `hostname`. -/
theorem normalize_isSome_of_wf (d : Kvs) (soa : Kvs) (mail : String)
    (nss hs : List YVal)
    (hsoa : lookup d "soa" = some (YVal.dict soa))
    (hmail : lookup soa "mail" = some (YVal.str mail))
    (hnss : lookup d "nameservers" = some (YVal.list nss))
    (hhs : lookup d "hosts" = some (YVal.list hs))
    (hwf : ∀ e ∈ nss ++ hs, ∃ kvs h2, e = YVal.dict kvs
      ∧ lookup kvs "hostname" = some (YVal.str h2)) :
    ∃ d2, normalize d = some d2 := by
  have hwfn : ∀ e ∈ nss, (normEntry e).isSome := by
    intro e he
    obtain ⟨kvs, h2, rfl, hh⟩ := hwf e (List.mem_append_left _ he)
    exact normEntry_isSome kvs h2 hh
  have hwfh : ∀ e ∈ hs, (normEntry e).isSome := by
    intro e he
    obtain ⟨kvs, h2, rfl, hh⟩ := hwf e (List.mem_append_right _ he)
    exact normEntry_isSome kvs h2 hh
  obtain ⟨nss2, hnss2⟩ := mapNorm_of_all nss hwfn
  obtain ⟨hs2, hhs2⟩ := mapNorm_of_all hs hwfh
  have hlook1 : lookup (setKey d "soa"
      (YVal.dict (setKey soa "mail" (YVal.str (normalizeMail mail))))) "nameservers"
      = some (YVal.list nss) := by
    rw [lookup_setKey_ne _ _ _ _ (by decide)]
    exact hnss
  have hlook2 : lookup (setKey (setKey d "soa"
      (YVal.dict (setKey soa "mail" (YVal.str (normalizeMail mail)))))
      "nameservers" (YVal.list nss2)) "hosts" = some (YVal.list hs) := by
    rw [lookup_setKey_ne _ _ _ _ (by decide), lookup_setKey_ne _ _ _ _ (by decide)]
    exact hhs
  refine ⟨setKey (setKey (setKey d "soa"
      (YVal.dict (setKey soa "mail" (YVal.str (normalizeMail mail)))))
      "nameservers" (YVal.list nss2)) "hosts" (YVal.list hs2), ?_⟩
  simp [normalize, hsoa, YVal.asDict, hmail, YVal.asStr, hlook1, YVal.asList,
    hnss2, hlook2, hhs2]

/-- Regrouping of the `hosts[i].ip` diagnostic text around the rendered
index. -/
theorem hostsIpMsg_merge (t : String) :
    ("[ERROR] Required key \"" ++ "hosts" ++ "[" ++ t ++ "]." ++ "ip"
        ++ "\" Not Found" : String)
      = "[ERROR] Required key \"hosts[" ++ t ++ "].ip\" Not Found" := by
  apply String.ext
  simp [String.data_append, List.append_assoc]

/-- C9 amended: a missing `hostname` or `ip` in a list entry is only
reported by the validation loops, which continue over all remaining
entries without exiting; when every entry does have a string `hostname`
(so only `ip` can be missing), `parse_yml` indeed returns the
normalized document after printing one diagnostic per missing `ip`, at
that entry's index; but a missing `hostname` makes the subsequent
`normalize` call raise `KeyError` and terminate the process (see the
counterexample). -/
theorem c9_amended_entry_checks_nonfatal (d : Kvs) (dB : String) (soa : Kvs)
    (nss hs : List YVal)
    (hct : checkTops d TOP_LEVEL_REQUIRED = none)
    (hdb : lookup d "domainBase" = some (YVal.str dB))
    (hend : endsWithDot dB = true)
    (hsoa : lookup d "soa" = some (YVal.dict soa))
    (hreq : checkSoaReq soa SOA_REQUIRED = none)
    (hser : checkSerial soa = none)
    (hnss : lookup d "nameservers" = some (YVal.list nss))
    (hhs : lookup d "hosts" = some (YVal.list hs))
    (hwf : ∀ e ∈ nss ++ hs, ∃ kvs h2, e = YVal.dict kvs
      ∧ lookup kvs "hostname" = some (YVal.str h2)) :
    (∃ d2, (parse_yml d).2 = Except.ok d2)
    ∧ (parse_yml d).1 = (entryDiags "nameservers" NS_REQUIRED nss).1
        ++ (entryDiags "hosts" HOST_REQUIRED hs).1
    ∧ (∀ i (hi : i < hs.length) kvs, hs.get ⟨i, hi⟩ = YVal.dict kvs →
        lookup kvs "ip" = none →
        (StdStream.stdout, "[ERROR] Required key \"hosts[" ++ toString i
          ++ "].ip\" Not Found") ∈ (parse_yml d).1) := by
  obtain ⟨vm, hvm, hvmty⟩ := checkSoaReq_none_sound soa _ hreq ("mail", [PyTy.str])
    (by decide)
  have hvm2 : ∃ mail, vm = YVal.str mail := by
    cases vm <;> simp [isinstance] at hvmty
    exact ⟨_, rfl⟩
  obtain ⟨mail, rfl⟩ := hvm2
  have hwfn : ∀ e ∈ nss, ∃ kvs, e = YVal.dict kvs := by
    intro e he
    obtain ⟨kvs, h2, rfl, _⟩ := hwf e (List.mem_append_left _ he)
    exact ⟨kvs, rfl⟩
  have hwfh : ∀ e ∈ hs, ∃ kvs, e = YVal.dict kvs := by
    intro e he
    obtain ⟨kvs, h2, rfl, _⟩ := hwf e (List.mem_append_right _ he)
    exact ⟨kvs, rfl⟩
  have hc1 : (entryDiags "nameservers" NS_REQUIRED nss).2 = false :=
    entryDiagsAux_no_crash _ _ _ _ hwfn
  have hc2 : (entryDiags "hosts" HOST_REQUIRED hs).2 = false :=
    entryDiagsAux_no_crash _ _ _ _ hwfh
  obtain ⟨d2, hnorm⟩ := normalize_isSome_of_wf d soa mail nss hs hsoa hvm hnss hhs hwf
  have hp : parse_yml d = ((entryDiags "nameservers" NS_REQUIRED nss).1
      ++ (entryDiags "hosts" HOST_REQUIRED hs).1, Except.ok d2) := by
    simp [parse_yml, hct, hdb, hend, hsoa, hreq, hser, hnss, hhs, hc1, hc2, hnorm]
  refine ⟨⟨d2, by rw [hp]⟩, by rw [hp], ?_⟩
  intro i hi kvs he hmiss
  have hmem := entryDiags_mem_of_missing "hosts" HOST_REQUIRED "ip" (by decide)
    hs 0 i hi kvs hwfh he hmiss
  rw [Nat.zero_add, hostsIpMsg_merge] at hmem
  rw [hp]
  exact List.mem_append_right _ hmem

/-- The `soa` mapping of the sample documents. -/
def c9soa : Kvs :=
  [("mail", YVal.str "a@b"), ("refresh", YVal.int 1), ("retry", YVal.int 2),
   ("expire", YVal.int 3), ("ttl", YVal.int 4)]

/-- A nameserver list whose one entry is well-formed. -/
def c9nss : List YVal := [YVal.dict [("hostname", YVal.str "ns1")]]

/-- A host list whose one entry has a `hostname` but no `ip`. -/
def c9hs : List YVal := [YVal.dict [("hostname", YVal.str "www")]]

/-- A document passing every fatal check whose only host entry lacks
`ip`. -/
def missingIpDoc : Kvs :=
  [("ttl", YVal.str "1d"), ("domainBase", YVal.str "example.com."),
   ("networkBase", YVal.str "10.0.0"),
   ("soa", YVal.dict c9soa),
   ("nameservers", YVal.list c9nss),
   ("hosts", YVal.list c9hs)]

/-- Witness for C9's amended claim at a document whose host entry lacks
only `ip`. -/
theorem c9_amended_entry_checks_nonfatal_witness :
    (checkTops missingIpDoc TOP_LEVEL_REQUIRED = none
     ∧ lookup missingIpDoc "domainBase" = some (YVal.str "example.com.")
     ∧ endsWithDot "example.com." = true
     ∧ lookup missingIpDoc "soa" = some (YVal.dict c9soa)
     ∧ checkSoaReq c9soa SOA_REQUIRED = none
     ∧ checkSerial c9soa = none
     ∧ lookup missingIpDoc "nameservers" = some (YVal.list c9nss)
     ∧ lookup missingIpDoc "hosts" = some (YVal.list c9hs)
     ∧ (∀ e ∈ c9nss ++ c9hs, ∃ kvs h2, e = YVal.dict kvs
          ∧ lookup kvs "hostname" = some (YVal.str h2)))
    ∧ ((∃ d2, (parse_yml missingIpDoc).2 = Except.ok d2)
       ∧ (parse_yml missingIpDoc).1 = (entryDiags "nameservers" NS_REQUIRED c9nss).1
           ++ (entryDiags "hosts" HOST_REQUIRED c9hs).1
       ∧ (∀ i (hi : i < c9hs.length) kvs, c9hs.get ⟨i, hi⟩ = YVal.dict kvs →
            lookup kvs "ip" = none →
            (StdStream.stdout, "[ERROR] Required key \"hosts[" ++ toString i
              ++ "].ip\" Not Found") ∈ (parse_yml missingIpDoc).1)) :=
  ⟨⟨rfl, rfl, rfl, rfl, rfl, rfl, rfl, rfl,
    by
      intro e he
      simp [c9nss, c9hs] at he
      rcases he with rfl | rfl
      · exact ⟨_, _, rfl, rfl⟩
      · exact ⟨_, _, rfl, rfl⟩⟩,
   c9_amended_entry_checks_nonfatal missingIpDoc "example.com." c9soa c9nss c9hs
     rfl rfl rfl rfl rfl rfl rfl rfl
     (by
       intro e he
       simp [c9nss, c9hs] at he
       rcases he with rfl | rfl
       · exact ⟨_, _, rfl, rfl⟩
       · exact ⟨_, _, rfl, rfl⟩)⟩

/-- A document that passes every validation check with an empty
`nameservers` list (no diagnostics at all, `parse_yml` returns a
document). -/
def emptyNsDoc : Kvs :=
  [("ttl", YVal.str "1d"), ("domainBase", YVal.str "example.com."),
   ("networkBase", YVal.str "10.0.0"),
   ("soa", YVal.dict c9soa),
   ("nameservers", YVal.list []),
   ("hosts", YVal.list [YVal.dict [("hostname", YVal.str "www"),
     ("ip", YVal.str "10.0.0.5")]])]

/-- C10: an empty `nameservers` list satisfies every validation check
(`parse_yml` on such a document prints nothing and returns a
document), yet `build_header` then finds no `master` entry and reads
`nameservers[0]`, which does not exist: both emitters stop after the
`$TTL` line and the blank line, so emission cannot complete — a
non-empty `nameservers` list is an unstated precondition of
emission. -/
theorem c10_empty_nameservers_cannot_emit (d : ZoneDef) (da : Bool)
    (h : d.nameservers = []) :
    pickPrimary d.nameservers = none
    ∧ build_header d da
        = Except.error [(Sink.given, "$TTL " ++ d.ttl), (Sink.given, "")]
    ∧ build_forward_db d da
        = Except.error [(Sink.given, "$TTL " ++ d.ttl), (Sink.given, "")]
    ∧ build_reverse_db d da
        = Except.error [(Sink.given, "$TTL " ++ d.ttl), (Sink.given, "")]
    ∧ (parse_yml emptyNsDoc).1 = []
    ∧ (∃ d2, (parse_yml emptyNsDoc).2 = Except.ok d2) := by
  have hpp : pickPrimary d.nameservers = none := by
    rw [h]
    rfl
  refine ⟨hpp, ?_, ?_, ?_, by rfl, ⟨_, by rfl⟩⟩
  · simp [build_header, hpp]
  · simp [build_forward_db, build_header, hpp]
  · simp [build_reverse_db, build_header, hpp]

/-- Witness for C10 at a typed document with no nameservers. -/
theorem c10_empty_nameservers_cannot_emit_witness :
    ((⟨"1d", "example.com.", "10.0.0", ⟨"admin.example.com.", "1", "2", "3", "4"⟩,
        [], []⟩ : ZoneDef).nameservers = [])
    ∧ (pickPrimary (⟨"1d", "example.com.", "10.0.0",
          ⟨"admin.example.com.", "1", "2", "3", "4"⟩, [], []⟩ : ZoneDef).nameservers = none
       ∧ build_header (⟨"1d", "example.com.", "10.0.0",
            ⟨"admin.example.com.", "1", "2", "3", "4"⟩, [], []⟩ : ZoneDef) false
          = Except.error [(Sink.given, "$TTL " ++ "1d"), (Sink.given, "")]
       ∧ build_forward_db (⟨"1d", "example.com.", "10.0.0",
            ⟨"admin.example.com.", "1", "2", "3", "4"⟩, [], []⟩ : ZoneDef) false
          = Except.error [(Sink.given, "$TTL " ++ "1d"), (Sink.given, "")]
       ∧ build_reverse_db (⟨"1d", "example.com.", "10.0.0",
            ⟨"admin.example.com.", "1", "2", "3", "4"⟩, [], []⟩ : ZoneDef) false
          = Except.error [(Sink.given, "$TTL " ++ "1d"), (Sink.given, "")]
       ∧ (parse_yml emptyNsDoc).1 = []
       ∧ (∃ d2, (parse_yml emptyNsDoc).2 = Except.ok d2)) :=
  ⟨rfl,
   c10_empty_nameservers_cannot_emit
     (⟨"1d", "example.com.", "10.0.0", ⟨"admin.example.com.", "1", "2", "3", "4"⟩,
       [], []⟩ : ZoneDef) false rfl⟩

end Yml2BindDb
